import Mathlib

/-- Verification model of the PicFast service: the content-addressed image
upload/retrieval pipeline (apps/image) and the access-key token lifecycle
(apps/auth, utils/token_manager.py), shallowly embedded from the Python
sources. Redis is modelled as an association list of entries carrying a TTL;
MySQL tables as lists of records; the blob store adapter, the content hash and
the argon2 secret verifier as opaque function parameters. Strings that are
built by concatenation and matched by prefix (the Redis keys of the token
registry) are modelled as lists of characters. -/
def picfastModel : String := "PicFast"

namespace PicFast

/-! Token registry: the Redis keyspace written by utils/token_manager.py via
redis_client.setex / get / delete / delete_prefix (core/engine.py). -/

/-- One Redis entry of the token registry: key, stored value, TTL in
seconds as written by redis_client.setex. -/
structure REntry where
  key : List Char
  val : List Char
  ttl : Nat
deriving Repr, DecidableEq

/-- The token registry state, an association list over Redis keys. -/
abbrev Registry := List REntry

/-- redis_client.setex key expire value: bind the value under the key with a
TTL, replacing any existing binding for the same key. -/
def Registry.setex (st : Registry) (k v : List Char) (ttl : Nat) : Registry :=
  ⟨k, v, ttl⟩ :: st.filter (fun e => e.key != k)

/-- redis_client.get key: the stored value, or none when absent. -/
def Registry.get (st : Registry) (k : List Char) : Option (List Char) :=
  (st.find? (fun e => e.key == k)).map (fun e => e.val)

/-- redis_client.delete key. -/
def Registry.del (st : Registry) (k : List Char) : Registry :=
  st.filter (fun e => e.key != k)

/-- RedisClient.delete_prefix p (core/engine.py): delete every key matching
p followed by anything, i.e. every key having p as a prefix. -/
def Registry.delByPre (st : Registry) (p : List Char) : Registry :=
  st.filter (fun e => !(p.isPrefixOf e.key))

/-! Signed tokens. jwt.encode / jwt.decode are opaque crypto, so a token is
modelled as its decoded payload together with a signature-validity flag and
the raw string the client presents (which is also what the registry stores
and compares verbatim). -/

/-- Claims of a JWT minted by TokenManager: subject (the access_key), the
type tag (access or refresh), the expiry instant, and the extra claims kid,
name, key added by AuthService. -/
structure Payload where
  sub : List Char
  typ : List Char
  exp : Nat
  kid : Nat
  name : String
  keyClaim : Option (List Char)
deriving Repr, DecidableEq

/-- A presented bearer token: decoded payload, whether the signature verifies
under the server secret, and the raw compact string. -/
structure Tok where
  payload : Payload
  sigOk : Bool
  raw : List Char
deriving Repr, DecidableEq

/-- An HTTPException: status code and detail message. -/
structure HError where
  status : Nat
  detail : String
deriving Repr, DecidableEq

/-- The access type tag. -/
def accessType : List Char := "access".toList

/-- The refresh type tag. -/
def refreshType : List Char := "refresh".toList

/-- settings.TOKEN_REDIS_PREFIX (default value in core/conf.py). -/
def accessPre : List Char := "token".toList

/-- settings.TOKEN_REFRESH_REDIS_PREFIX (default value in core/conf.py). -/
def refreshPre : List Char := "token:refresh".toList

/-- Registry key for one issued token: prefix:subject:token. -/
def tokenKey (p sub raw : List Char) : List Char :=
  p ++ ':' :: (sub ++ ':' :: raw)

/-- Registry key prefix covering every token of one subject: prefix:subject,
the argument passed to delete_prefix by revoke_tokens. -/
def subjectPre (p sub : List Char) : List Char :=
  p ++ ':' :: sub

/-- TokenManager.decode_token: jose validates the signature first, then the
exp claim; afterwards the code requires a nonempty sub claim. Every failure
is an HTTPException 401. -/
def decode_token (now : Nat) (t : Tok) : Except HError Payload :=
  if ¬ t.sigOk then .error ⟨401, "Could not validate token"⟩
  else if t.payload.exp ≤ now then .error ⟨401, "Token has expired"⟩
  else if t.payload.sub = [] then .error ⟨401, "Invalid token"⟩
  else .ok t.payload

/-- Registry prefix selected by verify_token for a requested token type:
the access prefix for access, the refresh prefix for anything else. -/
def preFor (token_type : List Char) : List Char :=
  if token_type = accessType then accessPre else refreshPre

/-- TokenManager.verify_token: decode and validate the token, require the
type tag to equal the requested type, then require the registry entry under
prefix:sub:token to exist, be nonempty and equal the presented raw token. -/
def verify_token (now : Nat) (st : Registry) (t : Tok) (token_type : List Char) :
    Except HError Payload :=
  match decode_token now t with
  | .error e => .error e
  | .ok payload =>
    if payload.typ ≠ token_type then .error ⟨401, "Invalid token type"⟩
    else
      match Registry.get st (tokenKey (preFor token_type) payload.sub t.raw) with
      | some v =>
        if v = [] ∨ v ≠ t.raw then .error ⟨401, "Token is invalid or expired"⟩
        else .ok payload
      | none => .error ⟨401, "Token is invalid or expired"⟩

/-- Raw strings and lifetimes of the tokens a call mints; jwt.encode output
is opaque, so the minted raw strings are parameters of the model. -/
structure MintEnv where
  newAccessRaw : List Char
  newRefreshRaw : List Char
  accessExpires : Nat
  refreshExpires : Nat
deriving Repr, DecidableEq

/-- TokenManager._store_token_in_redis with multi_login true (the default on
the issuance and refresh paths, where the extra data has no multi_login key):
no prefix deletion happens and the token is stored under prefix:subject:token
with value the token itself. -/
def store_token (st : Registry) (p sub raw : List Char) (ttl : Nat) : Registry :=
  Registry.setex st (tokenKey p sub raw) raw ttl

/-- TokenManager.generate_token_pair: mint and store an access token, then a
refresh token, for the subject. -/
def generate_token_pair (env : MintEnv) (st : Registry) (sub : List Char) :
    (List Char × List Char) × Registry :=
  let st1 := store_token st accessPre sub env.newAccessRaw env.accessExpires
  let st2 := store_token st1 refreshPre sub env.newRefreshRaw env.refreshExpires
  ((env.newAccessRaw, env.newRefreshRaw), st2)

/-- TokenManager.revoke_tokens: delete every registry entry whose key starts
with the access prefix of the identity, then every entry whose key starts
with its refresh prefix. -/
def revoke_tokens (st : Registry) (access_key : List Char) : Registry :=
  Registry.delByPre (Registry.delByPre st (subjectPre accessPre access_key))
    (subjectPre refreshPre access_key)

/-- TokenManager.refresh_tokens: requires the refresh registry entry to exist
and equal the presented token, mints a new pair, then deletes the old access
and refresh entries. NOTE: this method is never called by any service in the
repository; the refresh endpoint uses AuthService.refresh_credentials below. -/
def refresh_tokens (env : MintEnv) (st : Registry)
    (sub token refresh_raw : List Char) :
    Except HError ((List Char × List Char) × Registry) :=
  match Registry.get st (tokenKey refreshPre sub refresh_raw) with
  | none => .error ⟨401, "Refresh token has expired"⟩
  | some v =>
    if v = [] ∨ v ≠ refresh_raw then .error ⟨401, "Refresh token has expired"⟩
    else
      let pairSt := generate_token_pair env st sub
      let st2 := Registry.del pairSt.2 (tokenKey accessPre sub token)
      let st3 := Registry.del st2 (tokenKey refreshPre sub refresh_raw)
      .ok (pairSt.1, st3)

/-! Access keys (apps/auth/models.py, apps/auth/crud.py). Instants are Nat;
the argon2 verifier is an opaque parameter vf. -/

/-- One row of the fp_access_keys table. -/
structure AccessKeyRec where
  id : Nat
  name : String
  access_key : List Char
  secret_key : String
  is_enabled : Bool
  expires_at : Option Nat
  last_used_at : Option Nat
deriving Repr, DecidableEq

/-- The SQL filter expires_at IS NULL OR expires_at > now used by
validate_credentials and get_access_key_by_access_key. -/
def stillValidB (now : Nat) (r : AccessKeyRec) : Bool :=
  match r.expires_at with
  | none => true
  | some e => decide (now < e)

/-- The expiry test of _validate_and_generate_tokens:
expires_at is set and strictly in the past. -/
def pastExpiryB (now : Nat) (k : AccessKeyRec) : Bool :=
  match k.expires_at with
  | none => false
  | some e => decide (e < now)

/-- AccessKeyCRUD.validate_credentials: one SELECT filtered on access_key,
is_enabled true and unexpired; on a hit the argon2 verifier compares the
presented secret with the stored hash. Key absent, disabled, expired and
wrong secret all return none. -/
def validate_credentials (db : List AccessKeyRec) (now : Nat)
    (vf : String → String → Bool) (access_key : List Char) (secret_key : String) :
    Option AccessKeyRec :=
  match db.find? (fun r =>
      r.access_key == access_key && r.is_enabled && stillValidB now r) with
  | none => none
  | some r => if vf secret_key r.secret_key then some r else none

/-- AccessKeyCRUD.get_access_key_by_access_key: the same SELECT filter on
enabled and unexpired, without a secret check. -/
def get_access_key_by_access_key (db : List AccessKeyRec) (now : Nat)
    (ak : List Char) : Option AccessKeyRec :=
  db.find? (fun r => r.access_key == ak && r.is_enabled && stillValidB now r)

/-- AccessKeyCRUD.update_last_used: UPDATE last_used_at for the key. -/
def update_last_used (db : List AccessKeyRec) (now : Nat) (ak : List Char) :
    List AccessKeyRec :=
  db.map (fun r =>
    if r.access_key == ak then { r with last_used_at := some now } else r)

/-- Outcome of an auth operation: the HTTP-level result plus the resulting
table and registry states (which persist across a raised HTTPException). -/
structure AuthOut where
  res : Except HError (List Char × List Char)
  db : List AccessKeyRec
  st : Registry
deriving Repr

/-- AuthService._validate_and_generate_tokens: 401 when the record is absent,
403 when it is disabled, 403 when it is past expiry; otherwise touch
last_used_at and mint a token pair for the access key. -/
def validate_and_generate_tokens (env : MintEnv) (now : Nat)
    (key_info : Option AccessKeyRec) (db : List AccessKeyRec) (st : Registry)
    (access_key : List Char) : AuthOut :=
  match key_info with
  | none => ⟨.error ⟨401, "Invalid credentials"⟩, db, st⟩
  | some k =>
    if ¬ k.is_enabled then ⟨.error ⟨403, "Access key is disabled"⟩, db, st⟩
    else if pastExpiryB now k then ⟨.error ⟨403, "Access key has expired"⟩, db, st⟩
    else
      let db1 := update_last_used db now access_key
      let pairSt := generate_token_pair env st access_key
      ⟨.ok pairSt.1, db1, pairSt.2⟩

/-- AuthService.issue_token: validate_credentials feeds
_validate_and_generate_tokens. -/
def issue_token (env : MintEnv) (now : Nat) (db : List AccessKeyRec)
    (st : Registry) (vf : String → String → Bool) (access_key : List Char)
    (secret_key : String) : AuthOut :=
  validate_and_generate_tokens env now
    (validate_credentials db now vf access_key secret_key) db st access_key

/-- AuthService.refresh_credentials: verify the presented token as a refresh
token, read the key claim, look the access key up with the enabled/unexpired
filter, and mint a fresh pair. The registry entry of the presented refresh
token is never deleted on this path. -/
def refresh_credentials (env : MintEnv) (now : Nat) (db : List AccessKeyRec)
    (st : Registry) (t : Tok) : AuthOut :=
  match verify_token now st t refreshType with
  | .error e => ⟨.error e, db, st⟩
  | .ok payload =>
    match payload.keyClaim with
    | none => ⟨.error ⟨401, "Invalid refresh token"⟩, db, st⟩
    | some ak =>
      if ak = [] then ⟨.error ⟨401, "Invalid refresh token"⟩, db, st⟩
      else
        validate_and_generate_tokens env now
          (get_access_key_by_access_key db now ak) db st ak

/-! Image pipeline (apps/image/services.py, apps/image/crud.py,
utils/file_processors.py). Byte strings are lists of Nat below 256. -/

/-- Hex digit for a value below 16, lowercase as produced by bytes.hex. -/
def hexDigit (n : Nat) : Char :=
  if n < 10 then Char.ofNat (48 + n) else Char.ofNat (87 + n)

/-- bytes.hex as used by _cache_image: two lowercase digits per byte. -/
def bytesToHex : List Nat → List Char
  | [] => []
  | b :: bs => hexDigit (b / 16) :: hexDigit (b % 16) :: bytesToHex bs

/-- Value of one hex digit, either case, as accepted by bytes.fromhex. -/
def hexVal (c : Char) : Option Nat :=
  if 48 ≤ c.toNat ∧ c.toNat ≤ 57 then some (c.toNat - 48)
  else if 97 ≤ c.toNat ∧ c.toNat ≤ 102 then some (c.toNat - 87)
  else if 65 ≤ c.toNat ∧ c.toNat ≤ 70 then some (c.toNat - 55)
  else none

/-- bytes.fromhex on a separator-free string: consecutive digit pairs; an odd
length or a non-digit fails. -/
def hexToBytes : List Char → Option (List Nat)
  | [] => some []
  | [_] => none
  | c1 :: c2 :: cs => do
    let h ← hexVal c1
    let l ← hexVal c2
    let rest ← hexToBytes cs
    pure ((16 * h + l) :: rest)

/-- The JSON object stored by _cache_image: the content as a hex string and
the mime type. json.dumps and json.loads are mutually inverse on such a
two-string object, so the serialized text is modelled by the object itself. -/
structure CacheVal where
  contentHex : List Char
  mime_type : String
deriving Repr, DecidableEq

/-- One Redis entry of the image cache. -/
structure CEntry where
  key : String
  val : CacheVal
  ttl : Nat
deriving Repr, DecidableEq

/-- The image cache keyspace. -/
abbrev CacheStore := List CEntry

/-- redis_client.set_key with an expire: replaces any binding of the key. -/
def CacheStore.setKey (c : CacheStore) (k : String) (v : CacheVal) (ttl : Nat) :
    CacheStore :=
  ⟨k, v, ttl⟩ :: c.filter (fun e => e.key != k)

/-- redis_client.get_key: the entry bound to the key, if any. -/
def CacheStore.getEntry (c : CacheStore) (k : String) : Option CEntry :=
  c.find? (fun e => e.key == k)

/-- settings.REDIS_KEY_PREFIX default, the CACHE_KEY_PREFIX of ImageService. -/
def cacheKeyPre : String := "picfast:"

/-- Cache key for a fingerprint. -/
def cacheKey (file_key : String) : String := cacheKeyPre ++ file_key

/-- CACHE_EXPIRE_DAYS * 24 * 3600: the fixed TTL of every cache write. -/
def CACHE_EXPIRE_SECONDS : Nat := 7 * 24 * 3600

/-- ImageService._cache_image: store the hex-encoded content and the mime
type under the prefixed key with the fixed seven-day TTL. -/
def cache_image (c : CacheStore) (file_key : String) (content : List Nat)
    (mime_type : String) : CacheStore :=
  CacheStore.setKey c (cacheKey file_key) ⟨bytesToHex content, mime_type⟩
    CACHE_EXPIRE_SECONDS

/-- ImageService._get_cached_image: fetch, json-parse and hex-decode; any
failure is swallowed and reported as a miss. -/
def get_cached_image (c : CacheStore) (file_key : String) :
    Option (List Nat × String) :=
  match CacheStore.getEntry c (cacheKey file_key) with
  | none => none
  | some e =>
    match hexToBytes e.val.contentHex with
    | none => none
    | some bs => some (bs, e.val.mime_type)

/-- The fields of the ImageCreate payload built by upload_image. The size is
the MB figure of get_file_size_mb stored exactly in hundredths of a MB. -/
structure ImgData where
  key : String
  original_name : Option String
  size : Nat
  mime_type : String
  storage_path : String
deriving Repr, DecidableEq

/-- One row of the pf_images table. -/
structure ImageRec where
  key : String
  original_name : Option String
  size : Nat
  mime_type : String
  storage_path : String
  view_count : Nat
deriving Repr, DecidableEq

/-- Row built from a create payload with a given view counter. -/
def ImgData.toRow (d : ImgData) (vc : Nat) : ImageRec :=
  ⟨d.key, d.original_name, d.size, d.mime_type, d.storage_path, vc⟩

/-- ImageCRUD.create_or_update_by_key: the first row with the same key has
all its mutable fields overwritten from the payload and its view_count kept
(or incremented when increment_view); otherwise a new row is inserted with
the view_count column default 0 (ImageCRUD.create_image). -/
def create_or_update_by_key (db : List ImageRec) (d : ImgData)
    (increment_view : Bool) : List ImageRec :=
  match db with
  | [] => [d.toRow 0]
  | r :: rs =>
    if r.key = d.key then
      d.toRow (if increment_view then r.view_count + 1 else r.view_count) :: rs
    else r :: create_or_update_by_key rs d increment_view

/-- Round n / d to the nearest integer, ties to even: the rounding of the
Python round builtin, idealized to exact rational arithmetic. -/
def roundHalfEven (n d : Nat) : Nat :=
  let q := n / d
  let r := n % d
  if 2 * r < d then q
  else if d < 2 * r then q + 1
  else if q % 2 = 0 then q else q + 1

/-- get_file_size_mb: round(size_bytes / 1048576, 2), represented exactly in
hundredths of a MB. -/
def get_file_size_mb_hundredths (size_bytes : Nat) : Nat :=
  roundHalfEven (100 * size_bytes) 1048576

/-- CACHE_SIZE_LIMIT_MB of ImageService, in hundredths of a MB. -/
def CACHE_SIZE_LIMIT_HUNDREDTHS : Nat := 300

/-- The extension including its dot under the os.path.splitext rule: the
rightmost dot splits, provided some earlier character is not a dot. -/
def extWithDot (cs : List Char) : List Char :=
  match cs.reverse.findIdx? (fun c => c == '.') with
  | none => []
  | some k =>
    if (cs.reverse.drop (k + 1)).any (fun c => c != '.') then
      cs.drop (cs.length - (k + 1))
    else []

/-- get_file_extension as called by upload_image with only a filename: an
empty or missing filename gives none, otherwise the splitext extension
without its dot, lowercased (the empty string when the name ends in a dot). -/
def get_file_extension (filename : Option String) : Option String :=
  match filename with
  | none => none
  | some s =>
    if s.toList = [] then none
    else
      let e := extWithDot s.toList
      if e = [] then none
      else some (String.mk ((e.drop 1).map Char.toLower))

/-- Python truthiness of the optional extension string checked by
upload_image: none and the empty string are falsy. -/
def extFalsy : Option String → Bool
  | none => true
  | some s => s.toList == []

/-- Outcome of one blob store put: a reference string is returned (the OSS
adapter in the repository returns the empty string on a caught failure), or
an exception escapes the adapter. -/
inductive BlobPut where
  | ret (ref : String)
  | exc
deriving Repr, DecidableEq

/-- External collaborators of ImageService, opaque to the service: content
fingerprint (md5 hexdigest), blob put, mime lookup, blob get. -/
structure ImgEnv where
  hashFn : List Nat → String
  blobPut : List Nat → String → BlobPut
  getMime : String → String
  blobGet : String → Option (List Nat)

/-- Outcome of upload_image: HTTP-level result (ok carries the file key)
plus the resulting table and cache states. -/
structure UploadOut where
  res : Except HError String
  db : List ImageRec
  cache : CacheStore

/-- ImageService.upload_image: hash, extension check (ValueError becomes a
400), blob put (an escaping exception becomes a 500, an empty reference a
ValueError hence a 400), then the metadata upsert with increment_view false,
then the conditional cache write for sizes below the 3 MB limit. -/
def upload_image (env : ImgEnv) (content : List Nat) (filename : Option String)
    (db : List ImageRec) (cache : CacheStore) : UploadOut :=
  let file_size := get_file_size_mb_hundredths content.length
  let file_key := env.hashFn content
  let file_extension := get_file_extension filename
  if extFalsy file_extension then
    ⟨.error ⟨400, "Invalid file type!"⟩, db, cache⟩
  else
    let new_file_name := file_key ++ "." ++ file_extension.getD ""
    match env.blobPut content new_file_name with
    | .exc => ⟨.error ⟨500, "Internal server error during upload"⟩, db, cache⟩
    | .ret storage_path =>
      let mime_type := env.getMime storage_path
      if storage_path = "" then
        ⟨.error ⟨400, "Upload Failed!"⟩, db, cache⟩
      else
        let db1 := create_or_update_by_key db
          ⟨file_key, filename, file_size, mime_type, storage_path⟩ false
        let cache1 :=
          if file_size < CACHE_SIZE_LIMIT_HUNDREDTHS then
            cache_image cache file_key content mime_type
          else cache
        ⟨.ok file_key, db1, cache1⟩

/-- Result of get_image: a cache hit returns content and mime type only; a
full fetch adds the original name; an unknown fingerprint returns none from
the service; an HTTPException carries status and detail. -/
inductive GetOut where
  | cached (content : List Nat) (mime_type : String)
  | full (content : List Nat) (mime_type : String) (original_name : Option String)
  | absent
  | herr (e : HError)
deriving Repr

/-- Outcome of get_image with the resulting table and cache states. -/
structure GetImageOut where
  out : GetOut
  db : List ImageRec
  cache : CacheStore

/-- ImageService._update_view_count and the inline increment of get_image:
add one to the view counter of the first row with the key, if any. -/
def update_view_count (db : List ImageRec) (k : String) : List ImageRec :=
  match db with
  | [] => []
  | r :: rs =>
    if r.key = k then { r with view_count := r.view_count + 1 } :: rs
    else r :: update_view_count rs k

/-- ImageService.get_image: cache hit increments the counter and returns the
cached pair; otherwise the metadata row is looked up (absent gives none),
the counter is incremented and committed, the blob is fetched (a failed
fetch raises HTTPException 404 with the content-not-found detail), and small
content is backfilled into the cache before returning. -/
def get_image (env : ImgEnv) (md5_key : String) (db : List ImageRec)
    (cache : CacheStore) : GetImageOut :=
  match get_cached_image cache md5_key with
  | some cd => ⟨.cached cd.1 cd.2, update_view_count db md5_key, cache⟩
  | none =>
    match db.find? (fun r => r.key == md5_key) with
    | none => ⟨.absent, db, cache⟩
    | some r =>
      let db1 := update_view_count db md5_key
      match env.blobGet r.storage_path with
      | none => ⟨.herr ⟨404, "Image content not found"⟩, db1, cache⟩
      | some content =>
        let cache1 :=
          if r.size < CACHE_SIZE_LIMIT_HUNDREDTHS then
            cache_image cache md5_key content r.mime_type
          else cache
        ⟨.full content r.mime_type r.original_name, db1, cache1⟩

/-- Number of rows carrying a given fingerprint key. -/
def countKey (db : List ImageRec) (k : String) : Nat :=
  (db.filter (fun r => r.key == k)).length

/-- view_count of the first row with the key, if any. -/
def viewOf (db : List ImageRec) (k : String) : Option Nat :=
  (db.find? (fun r => r.key == k)).map (fun r => r.view_count)

/-- The unique constraint of the key column: pairwise distinct keys. -/
def uniqueKeys (db : List ImageRec) : Prop :=
  db.Pairwise (fun a b => a.key ≠ b.key)

/-- The unique constraint of the access_key column. -/
def uniqueAccessKeys (db : List AccessKeyRec) : Prop :=
  db.Pairwise (fun a b => a.access_key ≠ b.access_key)

/-- Row bound to an access key, ignoring enabled and expiry state. -/
def lookupAK (db : List AccessKeyRec) (ak : List Char) : Option AccessKeyRec :=
  db.find? (fun r => r.access_key == ak)

/-! Helper lemmas about the registry model. -/

theorem isPrefixOf_append_self (l t : List Char) :
    l.isPrefixOf (l ++ t) = true := by
  induction l with
  | nil => simp [List.isPrefixOf]
  | cons a as ih => simp [List.isPrefixOf, ih]

theorem tokenKey_eq (p sub raw : List Char) :
    tokenKey p sub raw = subjectPre p sub ++ ':' :: raw := by
  simp [tokenKey, subjectPre]

theorem Registry.get_cons_pos (e : REntry) (es : Registry) (k : List Char)
    (h : e.key = k) : Registry.get (e :: es) k = some e.val := by
  simp [Registry.get, List.find?_cons, h]

theorem Registry.get_cons_neg (e : REntry) (es : Registry) (k : List Char)
    (h : e.key ≠ k) : Registry.get (e :: es) k = Registry.get es k := by
  simp [Registry.get, List.find?_cons, h]

theorem Registry.get_delByPre (st : Registry) (p k : List Char) :
    Registry.get (Registry.delByPre st p) k =
      if p.isPrefixOf k then none else Registry.get st k := by
  induction st with
  | nil => simp [Registry.get, Registry.delByPre]
  | cons e es ih =>
    by_cases hpe : p.isPrefixOf e.key
    · have hstep : Registry.delByPre (e :: es) p = Registry.delByPre es p := by
        simp [Registry.delByPre, List.filter_cons, hpe]
      rw [hstep, ih]
      by_cases hk : p.isPrefixOf k
      · simp [hk]
      · have hne : e.key ≠ k := fun he => hk (he ▸ hpe)
        rw [if_neg hk, if_neg hk, Registry.get_cons_neg e es k hne]
    · have hstep : Registry.delByPre (e :: es) p = e :: Registry.delByPre es p := by
        simp [Registry.delByPre, List.filter_cons, hpe]
      rw [hstep]
      by_cases hek : e.key = k
      · have hk : ¬ p.isPrefixOf k = true := fun hb => hpe (hek ▸ hb)
        rw [Registry.get_cons_pos e _ k hek, if_neg hk,
          Registry.get_cons_pos e es k hek]
      · rw [Registry.get_cons_neg e _ k hek, ih]
        by_cases hk : p.isPrefixOf k
        · simp [hk]
        · rw [if_neg hk, if_neg hk, Registry.get_cons_neg e es k hek]

theorem Registry.get_filter_ne (st : Registry) (k k2 : List Char) (h : k2 ≠ k) :
    Registry.get (st.filter (fun e => e.key != k)) k2 = Registry.get st k2 := by
  induction st with
  | nil => rfl
  | cons e es ih =>
    by_cases hek : e.key = k
    · have hdrop : (e.key != k) = false := by simp [hek]
      rw [List.filter_cons, hdrop]
      simp only [Bool.false_eq_true, if_false]
      rw [ih]
      have hne : e.key ≠ k2 := by
        intro hb
        rw [hek] at hb
        exact h hb.symm
      exact (Registry.get_cons_neg e es k2 hne).symm
    · have hkeep : (e.key != k) = true := by simp [hek]
      rw [List.filter_cons, hkeep]
      simp only [if_true]
      by_cases hek2 : e.key = k2
      · rw [Registry.get_cons_pos e _ k2 hek2, Registry.get_cons_pos e es k2 hek2]
      · rw [Registry.get_cons_neg e _ k2 hek2, Registry.get_cons_neg e es k2 hek2]
        exact ih

theorem Registry.get_setex (st : Registry) (k v : List Char) (ttl : Nat)
    (k2 : List Char) :
    Registry.get (Registry.setex st k v ttl) k2 =
      if k2 = k then some v else Registry.get st k2 := by
  by_cases hk : k2 = k
  · subst hk
    rw [if_pos rfl]
    exact Registry.get_cons_pos _ _ _ rfl
  · rw [if_neg hk]
    unfold Registry.setex
    rw [Registry.get_cons_neg _ _ _ (fun hb => hk hb.symm)]
    exact Registry.get_filter_ne st k k2 hk

theorem get_revoke_tokens (st : Registry) (ak raw tt : List Char) :
    Registry.get (revoke_tokens st ak) (tokenKey (preFor tt) ak raw) = none := by
  unfold revoke_tokens
  rw [Registry.get_delByPre, Registry.get_delByPre]
  by_cases htt : tt = accessType
  · simp [preFor, htt, tokenKey_eq, isPrefixOf_append_self]
  · simp [preFor, htt, tokenKey_eq, isPrefixOf_append_self]

/-! Helper lemmas about decoding and verification. -/

theorem decode_token_err_status {now : Nat} {t : Tok} {e : HError}
    (h : decode_token now t = .error e) : e.status = 401 := by
  unfold decode_token at h
  split at h
  · injection h with h2; exact h2 ▸ rfl
  split at h
  · injection h with h2; exact h2 ▸ rfl
  split at h
  · injection h with h2; exact h2 ▸ rfl
  · exact Except.noConfusion h

theorem decode_token_ok_elim {now : Nat} {t : Tok} {q : Payload}
    (h : decode_token now t = .ok q) :
    q = t.payload ∧ t.sigOk = true ∧ now < t.payload.exp ∧ t.payload.sub ≠ [] := by
  unfold decode_token at h
  split at h
  · exact Except.noConfusion h
  split at h
  · exact Except.noConfusion h
  split at h
  · exact Except.noConfusion h
  · rename_i h1 h2 h3
    injection h with h4
    exact ⟨h4.symm, Decidable.not_not.mp h1, Nat.lt_of_not_le h2, h3⟩

theorem decode_token_ok_intro {now : Nat} {t : Tok}
    (h1 : t.sigOk = true) (h2 : now < t.payload.exp) (h3 : t.payload.sub ≠ []) :
    decode_token now t = .ok t.payload := by
  unfold decode_token
  rw [if_neg (Decidable.not_not.mpr h1), if_neg (Nat.not_le.mpr h2), if_neg h3]

theorem verify_token_err_status {now : Nat} {st : Registry} {t : Tok}
    {tt : List Char} {e : HError}
    (h : verify_token now st t tt = .error e) : e.status = 401 := by
  unfold verify_token at h
  split at h
  · rename_i e2 hd
    injection h with h2
    exact h2 ▸ decode_token_err_status hd
  · split at h
    · injection h with h2
      subst h2
      rfl
    · split at h
      · split at h
        · injection h with h2
          subst h2
          rfl
        · exact Except.noConfusion h
      · injection h with h2
        subst h2
        rfl

theorem verify_token_ok_elim {now : Nat} {st : Registry} {t : Tok}
    {tt : List Char} {p : Payload}
    (h : verify_token now st t tt = .ok p) :
    p = t.payload ∧ t.sigOk = true ∧ now < t.payload.exp ∧ t.payload.sub ≠ [] ∧
      t.payload.typ = tt ∧ t.raw ≠ [] ∧
      Registry.get st (tokenKey (preFor tt) t.payload.sub t.raw) = some t.raw := by
  unfold verify_token at h
  split at h
  · exact Except.noConfusion h
  · rename_i payload hd
    obtain ⟨hq, hsig, hexp, hsub⟩ := decode_token_ok_elim hd
    subst hq
    split at h
    · exact Except.noConfusion h
    · rename_i htyp
      split at h
      · rename_i v hg
        split at h
        · exact Except.noConfusion h
        · rename_i hv
          injection h with h2
          push_neg at hv
          refine ⟨h2.symm, hsig, hexp, hsub, Decidable.not_not.mp htyp,
            hv.2 ▸ hv.1, ?_⟩
          rw [hg, hv.2]
      · exact Except.noConfusion h

theorem verify_token_ok_intro {now : Nat} {st : Registry} {t : Tok}
    {tt : List Char}
    (h1 : t.sigOk = true) (h2 : now < t.payload.exp) (h3 : t.payload.sub ≠ [])
    (h4 : t.payload.typ = tt) (h5 : t.raw ≠ [])
    (h6 : Registry.get st (tokenKey (preFor tt) t.payload.sub t.raw) = some t.raw) :
    verify_token now st t tt = .ok t.payload := by
  have hcond : ¬ (t.raw = [] ∨ t.raw ≠ t.raw) := by
    push_neg
    exact ⟨h5, rfl⟩
  unfold verify_token
  rw [decode_token_ok_intro h1 h2 h3]
  dsimp only
  rw [if_neg (Decidable.not_not.mpr h4), h6]
  dsimp only
  rw [if_neg hcond]

/-- Claim C2: verify_token returns the token claims exactly when (1) the
signature is valid and the token unexpired, (2) the decoded type tag equals
the expected type, and (3) a registry entry under the key built from the
type prefix, subject and token exists whose stored value equals the
presented token verbatim; any other outcome is an HTTPException with status
401. Stated for tokens with a nonempty subject and a nonempty raw string,
which holds of every token the manager mints. -/
theorem C2_verify_token_checks (now : Nat) (st : Registry) (t : Tok)
    (tt : List Char) (hsub : t.payload.sub ≠ []) (hraw : t.raw ≠ []) :
    (verify_token now st t tt = .ok t.payload ↔
      (t.sigOk = true ∧ now < t.payload.exp ∧ t.payload.typ = tt ∧
        Registry.get st (tokenKey (preFor tt) t.payload.sub t.raw) =
          some t.raw)) ∧
    (∀ e, verify_token now st t tt = .error e → e.status = 401) := by
  refine ⟨⟨fun h => ?_, fun h => ?_⟩, fun e he => verify_token_err_status he⟩
  · obtain ⟨_, hsig, hexp, _, htyp, _, hget⟩ := verify_token_ok_elim h
    exact ⟨hsig, hexp, htyp, hget⟩
  · obtain ⟨hsig, hexp, htyp, hget⟩ := h
    exact verify_token_ok_intro hsig hexp hsub htyp hraw hget

/-- Registry holding one valid access token entry, for the C2 witness. -/
def stW2 : Registry :=
  [⟨tokenKey accessPre ("ak1".toList) ("tk".toList), "tk".toList, 60⟩]

/-- A valid signed access token for the C2 witness. -/
def tW2 : Tok :=
  ⟨⟨"ak1".toList, "access".toList, 5, 1, "n", some ("ak1".toList)⟩, true,
    "tk".toList⟩

/-- Witness for C2 at a concrete token and registry. -/
theorem C2_verify_token_checks_witness :
    (verify_token 0 stW2 tW2 accessType = .ok tW2.payload ↔
      (tW2.sigOk = true ∧ 0 < tW2.payload.exp ∧ tW2.payload.typ = accessType ∧
        Registry.get stW2 (tokenKey (preFor accessType) tW2.payload.sub tW2.raw) =
          some tW2.raw)) ∧
    (∀ e, verify_token 0 stW2 tW2 accessType = .error e → e.status = 401) :=
  C2_verify_token_checks 0 stW2 tW2 accessType (by decide) (by decide)

/-- Claim C3: after revoke_tokens of an access key, verify_token of every
token whose subject is that key fails with status 401 — whatever its
signature validity, expiry and type — because both registry prefixes of the
identity were deleted and verification requires a matching registry entry. -/
theorem C3_revoke_all_invalidates (now : Nat) (st : Registry) (t : Tok)
    (tt : List Char) (ak : List Char) (hsub : t.payload.sub = ak) :
    ∃ e, verify_token now (revoke_tokens st ak) t tt = .error e ∧
      e.status = 401 := by
  cases hv : verify_token now (revoke_tokens st ak) t tt with
  | ok p =>
    exfalso
    obtain ⟨_, _, _, _, _, _, hget⟩ := verify_token_ok_elim hv
    rw [hsub] at hget
    rw [get_revoke_tokens st ak t.raw tt] at hget
    exact Option.noConfusion hget
  | error e => exact ⟨e, rfl, verify_token_err_status hv⟩

/-- Registry holding one access token entry of ak1, for the C3 witness. -/
def stW3 : Registry :=
  [⟨tokenKey accessPre ("ak1".toList) ("tk3".toList), "tk3".toList, 60⟩]

/-- A signed, unexpired access token of ak1 for the C3 witness: before the
revocation it verifies, afterwards it must not. -/
def tW3 : Tok :=
  ⟨⟨"ak1".toList, "access".toList, 100, 1, "n", some ("ak1".toList)⟩, true,
    "tk3".toList⟩

/-- Witness for C3: the concrete valid token of ak1 fails verification with
a 401 after revoke_tokens, although its signature and expiry are intact. -/
theorem C3_revoke_all_invalidates_witness :
    ∃ e, verify_token 5 (revoke_tokens stW3 ("ak1".toList)) tW3 accessType =
      .error e ∧ e.status = 401 :=
  C3_revoke_all_invalidates 5 stW3 tW3 accessType ("ak1".toList) rfl

/-- Minted raw tokens and lifetimes for the C4 run. -/
def envW4 : MintEnv := ⟨"na".toList, "nr".toList, 86400, 604800⟩

/-- The enabled, unexpired access key of the C4 run. -/
def keyW4 : AccessKeyRec := ⟨1, "n", "ak1".toList, "h", true, none, none⟩

/-- Payload of the presented refresh token in the C4 run. -/
def pW4 : Payload :=
  ⟨"ak1".toList, "refresh".toList, 100, 1, "n", some ("ak1".toList)⟩

/-- The presented refresh token of the C4 run: valid signature, unexpired. -/
def tW4 : Tok := ⟨pW4, true, "rt".toList⟩

/-- Registry before the first refresh: exactly the refresh entry of tW4. -/
def stW4 : Registry :=
  [⟨tokenKey refreshPre ("ak1".toList) ("rt".toList), "rt".toList, 604800⟩]

/-- Claim C4 is violated by the code: the refresh endpoint path
(AuthService.refresh_credentials) succeeds on the presented refresh token,
yet the same token still verifies as a refresh token against the resulting
registry, and a second refresh with the very same token succeeds as well —
the registry entry of the presented token is never deleted on this path
(TokenManager.refresh_tokens, which would delete it, is never called by the
service). -/
theorem C4_refresh_not_single_use :
    (refresh_credentials envW4 0 [keyW4] stW4 tW4).res =
      .ok ("na".toList, "nr".toList) ∧
    verify_token 0 (refresh_credentials envW4 0 [keyW4] stW4 tW4).st tW4
      refreshType = .ok pW4 ∧
    (refresh_credentials envW4 0 [keyW4]
      (refresh_credentials envW4 0 [keyW4] stW4 tW4).st tW4).res =
      .ok ("na".toList, "nr".toList) :=
  ⟨rfl, rfl, rfl⟩

/-! Helper lemmas for credential validation. -/

theorem find?_cons_true {α : Type} (p : α → Bool) (a : α) (l : List α)
    (h : p a = true) : (a :: l).find? p = some a := by
  simp [List.find?_cons, h]

theorem find?_cons_false {α : Type} (p : α → Bool) (a : α) (l : List α)
    (h : p a = false) : (a :: l).find? p = l.find? p := by
  simp [List.find?_cons, h]

theorem filter_cons_true {α : Type} (p : α → Bool) (a : α) (l : List α)
    (h : p a = true) : (a :: l).filter p = a :: l.filter p := by
  simp [List.filter_cons, h]

theorem filter_cons_false {α : Type} (p : α → Bool) (a : α) (l : List α)
    (h : p a = false) : (a :: l).filter p = l.filter p := by
  simp [List.filter_cons, h]

theorem find?_auth_none (db : List AccessKeyRec) (now : Nat) (ak : List Char)
    (h : ∀ r ∈ db, r.access_key ≠ ak) :
    db.find? (fun r =>
      r.access_key == ak && r.is_enabled && stillValidB now r) = none := by
  induction db with
  | nil => rfl
  | cons x xs ih =>
    have hx : x.access_key ≠ ak := h x (List.mem_cons_self x xs)
    have hb : (x.access_key == ak && x.is_enabled && stillValidB now x) = false := by
      simp [hx]
    simp only [List.find?_cons, hb]
    exact ih (fun y hy => h y (List.mem_cons_of_mem x hy))

theorem find?_auth_of_lookup (db : List AccessKeyRec) (now : Nat)
    (ak : List Char) (r : AccessKeyRec) (hu : uniqueAccessKeys db)
    (h : lookupAK db ak = some r) :
    db.find? (fun x => x.access_key == ak && x.is_enabled && stillValidB now x) =
      if r.is_enabled && stillValidB now r then some r else none := by
  induction db with
  | nil => exact Option.noConfusion h
  | cons x xs ih =>
    unfold lookupAK at h
    have hu2 := List.pairwise_cons.mp hu
    by_cases hx : x.access_key = ak
    · have hbeq : (x.access_key == ak) = true := by simp [hx]
      have hxr : x = r := by
        rw [find?_cons_true (fun y => y.access_key == ak) x xs hbeq] at h
        injection h
      subst hxr
      cases hei : x.is_enabled with
      | false =>
        have hp : (x.access_key == ak && x.is_enabled && stillValidB now x) = false := by
          simp [hei]
        rw [find?_cons_false (fun y => y.access_key == ak && y.is_enabled && stillValidB now y) x xs hp, if_neg (by simp [hei])]
        apply find?_auth_none
        intro y hy hya
        exact hu2.1 y hy (hx.trans hya.symm)
      | true =>
        cases hsv : stillValidB now x with
        | false =>
          have hp : (x.access_key == ak && x.is_enabled && stillValidB now x) = false := by
            simp [hsv]
          rw [find?_cons_false (fun y => y.access_key == ak && y.is_enabled && stillValidB now y) x xs hp, if_neg (by simp [hsv])]
          apply find?_auth_none
          intro y hy hya
          exact hu2.1 y hy (hx.trans hya.symm)
        | true =>
          have hp : (x.access_key == ak && x.is_enabled && stillValidB now x) = true := by
            simp [hbeq, hei, hsv]
          rw [find?_cons_true (fun y => y.access_key == ak && y.is_enabled && stillValidB now y) x xs hp, if_pos (by simp [hei, hsv])]
    · have hp1 : (x.access_key == ak) = false := by simp [hx]
      have hp : (x.access_key == ak && x.is_enabled && stillValidB now x) = false := by
        simp [hp1]
      rw [find?_cons_false (fun y => y.access_key == ak) x xs hp1] at h
      rw [find?_cons_false (fun y => y.access_key == ak && y.is_enabled && stillValidB now y) x xs hp]
      exact ih hu2.2 h

theorem validate_credentials_none_cases (db : List AccessKeyRec) (now : Nat)
    (vf : String → String → Bool) (ak : List Char) (sk : String)
    (hu : uniqueAccessKeys db)
    (h : lookupAK db ak = none ∨
      ∃ r, lookupAK db ak = some r ∧
        (r.is_enabled = false ∨ (∃ e, r.expires_at = some e ∧ e ≤ now) ∨
          vf sk r.secret_key = false)) :
    validate_credentials db now vf ak sk = none := by
  rcases h with hnone | ⟨r, hr, hcond⟩
  · have hfind : db.find? (fun x =>
        x.access_key == ak && x.is_enabled && stillValidB now x) = none := by
      apply find?_auth_none
      intro y hy hya
      rw [lookupAK, List.find?_eq_none] at hnone
      exact hnone y hy (by simp [hya])
    unfold validate_credentials
    rw [hfind]
  · have hfind := find?_auth_of_lookup db now ak r hu hr
    unfold validate_credentials
    rw [hfind]
    rcases hcond with hdis | ⟨e, he, hle⟩ | hvf
    · simp [hdis]
    · have hsv : stillValidB now r = false := by
        simp only [stillValidB, he]
        simp
        omega
      simp [hsv]
    · by_cases hb : (r.is_enabled && stillValidB now r) = true
      · simp [hb, hvf]
      · simp [Bool.eq_false_iff.mpr hb]

/-- Claim C6: validate_credentials returns the same failure value none for
all four failure causes — key not found, key disabled, key expired, and
secret not matching the stored hash — so a caller cannot tell which one
occurred. -/
theorem C6_validate_credentials_uniform (db : List AccessKeyRec) (now : Nat)
    (vf : String → String → Bool) (ak : List Char) (sk : String)
    (hu : uniqueAccessKeys db)
    (h : lookupAK db ak = none ∨
      ∃ r, lookupAK db ak = some r ∧
        (r.is_enabled = false ∨ (∃ e, r.expires_at = some e ∧ e ≤ now) ∨
          vf sk r.secret_key = false)) :
    validate_credentials db now vf ak sk = none :=
  validate_credentials_none_cases db now vf ak sk hu h

/-- Table with one disabled key, for the C6 witness. -/
def dbW6 : List AccessKeyRec := [⟨1, "n", "ak1".toList, "h", false, none, none⟩]

/-- Witness for C6: a disabled key with a matching secret verifier still
yields none. -/
theorem C6_validate_credentials_uniform_witness :
    validate_credentials dbW6 0 (fun _ _ => true) ("ak1".toList) "sk" = none :=
  C6_validate_credentials_uniform dbW6 0 (fun _ _ => true) ("ak1".toList) "sk"
    (List.pairwise_singleton _ _)
    (Or.inr ⟨⟨1, "n", "ak1".toList, "h", false, none, none⟩, rfl, Or.inl rfl⟩)

/-- Minted tokens for the C5 runs. -/
def envW5 : MintEnv := ⟨"na".toList, "nr".toList, 86400, 604800⟩

/-- Table with one disabled key, correct secret, for the C5 counterexample. -/
def dbW5 : List AccessKeyRec := [⟨1, "n", "ak1".toList, "h", false, none, none⟩]

/-- Counterexample to claim C5: issuing a token with the still-correct
credentials of a disabled key yields status 401 (Invalid credentials), not
the 403 the claim requires — validate_credentials filters disabled keys out
at the query level, so the 403 branch never sees them. -/
theorem C5_counterexample :
    (issue_token envW5 0 dbW5 [] (fun _ _ => true) ("ak1".toList) "sk").res =
      .error ⟨401, "Invalid credentials"⟩ ∧ (401 : Nat) ≠ 403 :=
  ⟨rfl, by decide⟩

/-- Claim C5 as amended: every credential-level failure of token issuance —
key absent, key disabled, key expired, or wrong secret — is reported as 401
Invalid credentials; the 403 branches of _validate_and_generate_tokens are
unreachable from the issuance path because validate_credentials already
returns none for disabled and expired keys. -/
theorem C5_issue_statuses (env : MintEnv) (now : Nat) (db : List AccessKeyRec)
    (st : Registry) (vf : String → String → Bool) (ak : List Char)
    (sk : String) (hu : uniqueAccessKeys db)
    (h : lookupAK db ak = none ∨
      ∃ r, lookupAK db ak = some r ∧
        (r.is_enabled = false ∨ (∃ e, r.expires_at = some e ∧ e ≤ now) ∨
          vf sk r.secret_key = false)) :
    (issue_token env now db st vf ak sk).res =
      .error ⟨401, "Invalid credentials"⟩ := by
  unfold issue_token validate_and_generate_tokens
  rw [validate_credentials_none_cases db now vf ak sk hu h]

/-- Witness for the amended C5 at a concrete disabled key. -/
theorem C5_issue_statuses_witness :
    (issue_token envW5 7 dbW5 [] (fun _ _ => true) ("ak1".toList) "sk").res =
      .error ⟨401, "Invalid credentials"⟩ :=
  C5_issue_statuses envW5 7 dbW5 [] (fun _ _ => true) ("ak1".toList) "sk"
    (List.pairwise_singleton _ _)
    (Or.inr ⟨⟨1, "n", "ak1".toList, "h", false, none, none⟩, rfl, Or.inl rfl⟩)

/-! Helper lemmas for the image pipeline. -/

theorem hexVal_hexDigit (n : Nat) (h : n < 16) : hexVal (hexDigit n) = some n := by
  interval_cases n <;> decide

theorem hexToBytes_bytesToHex (bs : List Nat) (h : ∀ b ∈ bs, b < 256) :
    hexToBytes (bytesToHex bs) = some bs := by
  induction bs with
  | nil => rfl
  | cons b rest ih =>
    have hb : b < 256 := h b (List.mem_cons_self b rest)
    have h1 : b / 16 < 16 := by omega
    have h2 : b % 16 < 16 := by omega
    simp only [bytesToHex, hexToBytes, hexVal_hexDigit _ h1, hexVal_hexDigit _ h2,
      Option.bind_eq_bind, Option.some_bind]
    rw [ih (fun y hy => h y (List.mem_cons_of_mem b hy))]
    simp [Nat.div_add_mod]

theorem CacheStore.getEntry_cons_pos (e : CEntry) (es : CacheStore) (k : String)
    (h : e.key = k) : CacheStore.getEntry (e :: es) k = some e := by
  simp [CacheStore.getEntry, List.find?_cons, h]

theorem CacheStore.getEntry_cons_neg (e : CEntry) (es : CacheStore) (k : String)
    (h : e.key ≠ k) : CacheStore.getEntry (e :: es) k = CacheStore.getEntry es k := by
  simp [CacheStore.getEntry, List.find?_cons, h]

theorem CacheStore.getEntry_filter_ne (c : CacheStore) (k k2 : String)
    (h : k2 ≠ k) :
    CacheStore.getEntry (c.filter (fun e => e.key != k)) k2 =
      CacheStore.getEntry c k2 := by
  induction c with
  | nil => rfl
  | cons e es ih =>
    by_cases hek : e.key = k
    · have hdrop : (e.key != k) = false := by simp [hek]
      rw [List.filter_cons, hdrop]
      simp only [Bool.false_eq_true, if_false]
      rw [ih]
      have hne : e.key ≠ k2 := by
        intro hb
        rw [hek] at hb
        exact h hb.symm
      exact (CacheStore.getEntry_cons_neg e es k2 hne).symm
    · have hkeep : (e.key != k) = true := by simp [hek]
      rw [List.filter_cons, hkeep]
      simp only [if_true]
      by_cases hek2 : e.key = k2
      · rw [CacheStore.getEntry_cons_pos e _ k2 hek2,
          CacheStore.getEntry_cons_pos e es k2 hek2]
      · rw [CacheStore.getEntry_cons_neg e _ k2 hek2,
          CacheStore.getEntry_cons_neg e es k2 hek2]
        exact ih

theorem CacheStore.getEntry_setKey (c : CacheStore) (k : String) (v : CacheVal)
    (ttl : Nat) (k2 : String) :
    CacheStore.getEntry (CacheStore.setKey c k v ttl) k2 =
      if k2 = k then some ⟨k, v, ttl⟩ else CacheStore.getEntry c k2 := by
  by_cases hk : k2 = k
  · subst hk
    rw [if_pos rfl]
    exact CacheStore.getEntry_cons_pos _ _ _ rfl
  · rw [if_neg hk]
    unfold CacheStore.setKey
    rw [CacheStore.getEntry_cons_neg _ _ _ (fun hb => hk hb.symm)]
    exact CacheStore.getEntry_filter_ne c k k2 hk

/-- Claim C10: a cache write followed by a cache read of the same fingerprint
returns exactly the original bytes and mime type: the hex encoding stored
inside the JSON value decodes back to the identical byte string. -/
theorem C10_cache_roundtrip (c : CacheStore) (fk : String) (content : List Nat)
    (mime : String) (h : ∀ b ∈ content, b < 256) :
    get_cached_image (cache_image c fk content mime) fk = some (content, mime) ∧
    hexToBytes (bytesToHex content) = some content := by
  have hhex := hexToBytes_bytesToHex content h
  refine ⟨?_, hhex⟩
  unfold get_cached_image cache_image
  rw [CacheStore.getEntry_setKey, if_pos rfl]
  dsimp only
  rw [hhex]

/-- Witness for C10 on a concrete byte string. -/
theorem C10_cache_roundtrip_witness :
    get_cached_image (cache_image [] "k" [0, 171, 255] "image/png") "k" =
      some ([0, 171, 255], "image/png") ∧
    hexToBytes (bytesToHex [0, 171, 255]) = some [0, 171, 255] :=
  C10_cache_roundtrip [] "k" [0, 171, 255] "image/png" (by decide)

/-! Characterization lemmas for upload_image and get_image. -/

theorem upload_image_success (env : ImgEnv) (content : List Nat)
    (fn : Option String) (db : List ImageRec) (cache : CacheStore) (ref : String)
    (hext : extFalsy (get_file_extension fn) = false)
    (hput : env.blobPut content
      (env.hashFn content ++ "." ++ (get_file_extension fn).getD "") = .ret ref)
    (href : ref ≠ "") :
    upload_image env content fn db cache =
      ⟨.ok (env.hashFn content),
        create_or_update_by_key db
          ⟨env.hashFn content, fn, get_file_size_mb_hundredths content.length,
            env.getMime ref, ref⟩ false,
        if get_file_size_mb_hundredths content.length <
            CACHE_SIZE_LIMIT_HUNDREDTHS then
          cache_image cache (env.hashFn content) content (env.getMime ref)
        else cache⟩ := by
  unfold upload_image
  simp only [hext, Bool.false_eq_true, if_false, hput]
  rw [if_neg href]

theorem upload_image_put_exc (env : ImgEnv) (content : List Nat)
    (fn : Option String) (db : List ImageRec) (cache : CacheStore)
    (hext : extFalsy (get_file_extension fn) = false)
    (hput : env.blobPut content
      (env.hashFn content ++ "." ++ (get_file_extension fn).getD "") = .exc) :
    upload_image env content fn db cache =
      ⟨.error ⟨500, "Internal server error during upload"⟩, db, cache⟩ := by
  unfold upload_image
  simp only [hext, Bool.false_eq_true, if_false, hput]

theorem upload_image_put_empty (env : ImgEnv) (content : List Nat)
    (fn : Option String) (db : List ImageRec) (cache : CacheStore)
    (hext : extFalsy (get_file_extension fn) = false)
    (hput : env.blobPut content
      (env.hashFn content ++ "." ++ (get_file_extension fn).getD "") = .ret "") :
    upload_image env content fn db cache =
      ⟨.error ⟨400, "Upload Failed!"⟩, db, cache⟩ := by
  unfold upload_image
  simp only [hext, Bool.false_eq_true, if_false, hput]
  simp

theorem upload_image_bad_ext (env : ImgEnv) (content : List Nat)
    (fn : Option String) (db : List ImageRec) (cache : CacheStore)
    (hext : extFalsy (get_file_extension fn) = true) :
    upload_image env content fn db cache =
      ⟨.error ⟨400, "Invalid file type!"⟩, db, cache⟩ := by
  unfold upload_image
  simp only [hext, if_true]

theorem get_image_blob_missing (env : ImgEnv) (key : String)
    (db : List ImageRec) (cache : CacheStore) (r : ImageRec)
    (hmiss : get_cached_image cache key = none)
    (hfind : db.find? (fun x => x.key == key) = some r)
    (hblob : env.blobGet r.storage_path = none) :
    get_image env key db cache =
      ⟨.herr ⟨404, "Image content not found"⟩, update_view_count db key, cache⟩ := by
  unfold get_image
  simp only [hmiss, hfind, hblob]

theorem get_image_absent (env : ImgEnv) (key : String) (db : List ImageRec)
    (cache : CacheStore)
    (hmiss : get_cached_image cache key = none)
    (hfind : db.find? (fun x => x.key == key) = none) :
    get_image env key db cache = ⟨.absent, db, cache⟩ := by
  unfold get_image
  simp only [hmiss, hfind]

theorem get_image_full (env : ImgEnv) (key : String) (db : List ImageRec)
    (cache : CacheStore) (r : ImageRec) (content : List Nat)
    (hmiss : get_cached_image cache key = none)
    (hfind : db.find? (fun x => x.key == key) = some r)
    (hblob : env.blobGet r.storage_path = some content) :
    get_image env key db cache =
      ⟨.full content r.mime_type r.original_name, update_view_count db key,
        if r.size < CACHE_SIZE_LIMIT_HUNDREDTHS then
          cache_image cache key content r.mime_type
        else cache⟩ := by
  unfold get_image
  simp only [hmiss, hfind, hblob]

/-! Helper lemmas for the idempotent upsert. -/

theorem countKey_eq_zero (db : List ImageRec) (k : String)
    (h : ∀ r ∈ db, r.key ≠ k) : countKey db k = 0 := by
  unfold countKey
  have hnil : db.filter (fun r => r.key == k) = [] := by
    rw [List.filter_eq_nil_iff]
    intro a ha
    simp [h a ha]
  rw [hnil]
  rfl

theorem create_or_update_count (db : List ImageRec) (d : ImgData) (i : Bool)
    (hu : uniqueKeys db) :
    countKey (create_or_update_by_key db d i) d.key = 1 := by
  induction db with
  | nil => simp [create_or_update_by_key, countKey, ImgData.toRow]
  | cons r rs ih =>
    have hu2 := List.pairwise_cons.mp hu
    by_cases hr : r.key = d.key
    · unfold create_or_update_by_key
      rw [if_pos hr]
      have hz : countKey rs d.key = 0 := by
        apply countKey_eq_zero
        intro y hy hyk
        exact hu2.1 y hy (hr.trans hyk.symm)
      unfold countKey at hz ⊢
      rw [filter_cons_true (fun x : ImageRec => x.key == d.key) _ rs
        (by simp [ImgData.toRow]), List.length_cons, hz]
    · unfold create_or_update_by_key
      rw [if_neg hr]
      unfold countKey
      rw [filter_cons_false (fun x : ImageRec => x.key == d.key) r _ (by simp [hr])]
      exact ih hu2.2

theorem create_or_update_mem_key (db : List ImageRec) (d : ImgData) (i : Bool) :
    ∀ x ∈ create_or_update_by_key db d i, x.key = d.key ∨ x ∈ db := by
  induction db with
  | nil =>
    intro x hx
    unfold create_or_update_by_key at hx
    rcases List.mem_singleton.mp hx with h
    exact Or.inl (h ▸ rfl)
  | cons r rs ih =>
    intro x hx
    unfold create_or_update_by_key at hx
    by_cases hr : r.key = d.key
    · rw [if_pos hr] at hx
      rcases List.mem_cons.mp hx with h | h
      · exact Or.inl (h ▸ rfl)
      · exact Or.inr (List.mem_cons_of_mem r h)
    · rw [if_neg hr] at hx
      rcases List.mem_cons.mp hx with h | h
      · exact Or.inr (h ▸ List.mem_cons_self r rs)
      · rcases ih x h with h2 | h2
        · exact Or.inl h2
        · exact Or.inr (List.mem_cons_of_mem r h2)

theorem create_or_update_unique (db : List ImageRec) (d : ImgData) (i : Bool)
    (hu : uniqueKeys db) :
    uniqueKeys (create_or_update_by_key db d i) := by
  induction db with
  | nil => exact List.pairwise_singleton _ _
  | cons r rs ih =>
    have hu2 := List.pairwise_cons.mp hu
    unfold create_or_update_by_key
    by_cases hr : r.key = d.key
    · rw [if_pos hr]
      apply List.pairwise_cons.mpr
      refine ⟨?_, hu2.2⟩
      intro y hy
      show (ImgData.toRow d _).key ≠ y.key
      intro hk
      exact hu2.1 y hy (hr.trans hk)
    · rw [if_neg hr]
      apply List.pairwise_cons.mpr
      refine ⟨?_, ih hu2.2⟩
      intro y hy
      rcases create_or_update_mem_key rs d i y hy with h | h
      · intro hk
        exact hr (hk.trans h)
      · exact hu2.1 y h

theorem create_or_update_viewOf (db : List ImageRec) (d : ImgData) :
    viewOf (create_or_update_by_key db d false) d.key =
      some ((viewOf db d.key).getD 0) := by
  induction db with
  | nil =>
    unfold create_or_update_by_key viewOf
    rw [find?_cons_true (fun x : ImageRec => x.key == d.key) _ []
      (by simp [ImgData.toRow])]
    rfl
  | cons r rs ih =>
    unfold create_or_update_by_key
    by_cases hr : r.key = d.key
    · rw [if_pos hr]
      unfold viewOf
      rw [find?_cons_true (fun x : ImageRec => x.key == d.key) _ rs
        (by simp [ImgData.toRow]),
        find?_cons_true (fun x : ImageRec => x.key == d.key) r rs (by simp [hr])]
      rfl
    · rw [if_neg hr]
      unfold viewOf at ih ⊢
      rw [find?_cons_false (fun x : ImageRec => x.key == d.key) r _ (by simp [hr]),
        find?_cons_false (fun x : ImageRec => x.key == d.key) r rs (by simp [hr])]
      exact ih

theorem upsert_iterate_inv (d : ImgData) (db : List ImageRec)
    (hu : uniqueKeys db) (m : Nat) :
    uniqueKeys ((fun x => create_or_update_by_key x d false)^[m + 1] db) ∧
    countKey ((fun x => create_or_update_by_key x d false)^[m + 1] db) d.key = 1 ∧
    viewOf ((fun x => create_or_update_by_key x d false)^[m + 1] db) d.key =
      some ((viewOf db d.key).getD 0) := by
  induction m with
  | zero =>
    rw [Function.iterate_one]
    exact ⟨create_or_update_unique db d false hu,
      create_or_update_count db d false hu, create_or_update_viewOf db d⟩
  | succ n ih =>
    obtain ⟨ihu, ihc, ihv⟩ := ih
    rw [Function.iterate_succ_apply']
    refine ⟨create_or_update_unique _ d false ihu,
      create_or_update_count _ d false ihu, ?_⟩
    rw [create_or_update_viewOf _ d, ihv]
    rfl

/-- Claim C1: uploading the same byte content N times (N at least 1) leaves
exactly one metadata row under the content fingerprint — re-uploads update
the existing row instead of duplicating it — and the view counter of that
row is untouched by every upload: it stays at its old value when the row
existed, and at the insert default 0 when the first upload created it. The
upload path invokes the upsert with increment_view false. -/
theorem C1_upload_idempotent (env : ImgEnv) (content : List Nat)
    (fn : Option String) (ref : String) (N : Nat) (db : List ImageRec)
    (hN : 1 ≤ N) (hu : uniqueKeys db)
    (hext : extFalsy (get_file_extension fn) = false)
    (hput : env.blobPut content
      (env.hashFn content ++ "." ++ (get_file_extension fn).getD "") = .ret ref)
    (href : ref ≠ "") :
    countKey ((fun x => (upload_image env content fn x []).db)^[N] db)
      (env.hashFn content) = 1 ∧
    viewOf ((fun x => (upload_image env content fn x []).db)^[N] db)
      (env.hashFn content) = some ((viewOf db (env.hashFn content)).getD 0) := by
  have hstep : (fun x => (upload_image env content fn x []).db) =
      (fun x => create_or_update_by_key x
        ⟨env.hashFn content, fn, get_file_size_mb_hundredths content.length,
          env.getMime ref, ref⟩ false) := by
    funext x
    rw [upload_image_success env content fn x [] ref hext hput href]
  obtain ⟨m, rfl⟩ : ∃ m, N = m + 1 := ⟨N - 1, by omega⟩
  rw [hstep]
  have h := upsert_iterate_inv
    ⟨env.hashFn content, fn, get_file_size_mb_hundredths content.length,
      env.getMime ref, ref⟩ db hu m
  exact ⟨h.2.1, h.2.2⟩

/-- Blob environment for the C1 witness. -/
def envW1 : ImgEnv :=
  ⟨fun _ => "k", fun _ _ => .ret "r", fun _ => "m", fun _ => none⟩

/-- Witness for C1: two uploads of the same byte into an empty table leave
one row with view counter 0. -/
theorem C1_upload_idempotent_witness :
    countKey ((fun x => (upload_image envW1 [1] (some "a.jpg") x []).db)^[2] [])
      (envW1.hashFn [1]) = 1 ∧
    viewOf ((fun x => (upload_image envW1 [1] (some "a.jpg") x []).db)^[2] [])
      (envW1.hashFn [1]) = some ((viewOf [] (envW1.hashFn [1])).getD 0) :=
  C1_upload_idempotent envW1 [1] (some "a.jpg") "r" 2 [] (by decide)
    List.Pairwise.nil (by decide) rfl (by decide)

/-- Blob environment for the C7 runs: the blob fetch always fails. -/
def envW7 : ImgEnv :=
  ⟨fun _ => "k", fun _ _ => .ret "r", fun _ => "m", fun _ => none⟩

/-- The metadata row of the C7 counterexample. -/
def rowW7 : ImageRec := ⟨"k", some "a.jpg", 10, "image/jpeg", "path", 0⟩

/-- Counterexample to claim C7: with a metadata row present and the blob
fetch failing, get_image raises HTTPException 404 (Image content not found),
a 404 like the unknown-fingerprint case, not the 500-class error the claim
requires. -/
theorem C7_counterexample :
    (get_image envW7 "k" [rowW7] []).out =
      .herr ⟨404, "Image content not found"⟩ ∧ (404 : Nat) ≠ 500 :=
  ⟨rfl, by decide⟩

/-- Claim C7 as amended: when a metadata row exists but the blob fetch of its
stored reference fails, get_image raises HTTPException with status 404 and
detail Image content not found — an outcome whose shape differs from the
unknown-fingerprint case (where the service returns none), but whose status
is the same 404, not a 500-class inconsistency error. -/
theorem C7_blob_missing_status (env : ImgEnv) (key : String)
    (db : List ImageRec) (cache : CacheStore) (r : ImageRec)
    (hmiss : get_cached_image cache key = none)
    (hfind : db.find? (fun x => x.key == key) = some r)
    (hblob : env.blobGet r.storage_path = none) :
    (get_image env key db cache).out =
      .herr ⟨404, "Image content not found"⟩ ∧
    (∀ db2 cache2, get_cached_image cache2 key = none →
      db2.find? (fun x : ImageRec => x.key == key) = none →
      (get_image env key db2 cache2).out = .absent) := by
  refine ⟨?_, fun db2 cache2 h1 h2 => ?_⟩
  · rw [get_image_blob_missing env key db cache r hmiss hfind hblob]
  · rw [get_image_absent env key db2 cache2 h1 h2]

/-- Witness for the amended C7 at concrete states: the blob-missing outcome
and the unknown-fingerprint outcome. -/
theorem C7_blob_missing_status_witness :
    (get_image envW7 "k" [rowW7] []).out =
      .herr ⟨404, "Image content not found"⟩ ∧
    (get_image envW7 "k" [] []).out = .absent := by
  have h := C7_blob_missing_status envW7 "k" [rowW7] [] rowW7 rfl rfl rfl
  exact ⟨h.1, h.2 [] [] rfl rfl⟩

/-- Blob environment for the C8 runs: the blob put returns an empty
reference, the failure mode of the OSS adapter in the repository. -/
def envW8 : ImgEnv :=
  ⟨fun _ => "k", fun _ _ => .ret "", fun _ => "m", fun _ => none⟩

/-- Counterexample to claim C8: when the blob write fails by returning an
empty reference, upload_image surfaces HTTP 400 (Upload Failed!), not the
500 the claim requires; the metadata table is untouched. -/
theorem C8_counterexample :
    (upload_image envW8 [1] (some "a.jpg") [] []).res =
      .error ⟨400, "Upload Failed!"⟩ ∧
    (upload_image envW8 [1] (some "a.jpg") [] []).db = [] ∧
    (400 : Nat) ≠ 500 :=
  ⟨rfl, rfl, by decide⟩

/-- Claim C8 as amended: on every upload where the blob write fails, the
operation aborts before the metadata upsert — the table and the cache are
unchanged — and the failure surfaces as HTTP 500 when the adapter raised,
but as HTTP 400 (Upload Failed!) when the adapter returned an empty
reference, the repo OSS adapter failure mode. -/
theorem C8_blob_failure_aborts (env : ImgEnv) (content : List Nat)
    (fn : Option String) (db : List ImageRec) (cache : CacheStore)
    (hext : extFalsy (get_file_extension fn) = false)
    (hfail : env.blobPut content
        (env.hashFn content ++ "." ++ (get_file_extension fn).getD "") = .exc ∨
      env.blobPut content
        (env.hashFn content ++ "." ++ (get_file_extension fn).getD "") = .ret "") :
    (upload_image env content fn db cache).db = db ∧
    (upload_image env content fn db cache).cache = cache ∧
    (upload_image env content fn db cache).res =
      .error (if env.blobPut content
          (env.hashFn content ++ "." ++ (get_file_extension fn).getD "") = .exc
        then ⟨500, "Internal server error during upload"⟩
        else ⟨400, "Upload Failed!"⟩) := by
  rcases hfail with hexc | hempty
  · rw [upload_image_put_exc env content fn db cache hext hexc]
    refine ⟨rfl, rfl, ?_⟩
    simp [hexc]
  · rw [upload_image_put_empty env content fn db cache hext hempty]
    refine ⟨rfl, rfl, ?_⟩
    simp [hempty]

/-- Witness for the amended C8 at the empty-reference failure. -/
theorem C8_blob_failure_aborts_witness :
    (upload_image envW8 [1] (some "a.jpg") [] []).db = [] ∧
    (upload_image envW8 [1] (some "a.jpg") [] []).cache = [] ∧
    (upload_image envW8 [1] (some "a.jpg") [] []).res =
      .error (if envW8.blobPut [1]
          (envW8.hashFn [1] ++ "." ++ (get_file_extension (some "a.jpg")).getD "")
          = .exc
        then ⟨500, "Internal server error during upload"⟩
        else ⟨400, "Upload Failed!"⟩) :=
  C8_blob_failure_aborts envW8 [1] (some "a.jpg") [] [] (by decide) (Or.inr rfl)

/-- Blob environment for the C9 counterexample. -/
def envW9 : ImgEnv :=
  ⟨fun _ => "k", fun _ _ => .ret "r", fun _ => "m", fun _ => none⟩

/-- Counterexample to claim C9: a payload of 3145727 bytes is strictly below
the 3 MB threshold, yet the upload writes no cache entry, because the code
compares the MB size rounded to two decimals (here exactly 3.00) with 3. -/
theorem C9_counterexample :
    (upload_image envW9 (List.replicate 3145727 0) (some "a.jpg") [] []).cache
      = [] ∧
    (List.replicate 3145727 0).length < 3 * 1024 * 1024 := by
  constructor
  · rw [upload_image_success envW9 (List.replicate 3145727 0) (some "a.jpg")
      [] [] "r" (by decide) rfl (by decide)]
    dsimp only
    simp only [List.length_replicate]
    rw [if_neg (by decide)]
  · simp only [List.length_replicate]
    decide

/-- Claim C9 as amended: on upload a cache entry for the fingerprint is
written exactly when round(bytes / 2^20, 2) is below 3 — equivalently when
the payload is at most 3140485 bytes (2.995 MB), so the last 5 KB below 3 MB
are not cached either — and on retrieval exactly when the stored rounded MB
size of the row is below 3; every cache write uses the fixed TTL of
7 * 24 * 3600 seconds. -/
theorem C9_small_object_cache (env : ImgEnv) (content : List Nat)
    (fn : Option String) (db : List ImageRec) (cache : CacheStore)
    (ref : String) (md5 : String) (db2 : List ImageRec) (cache2 : CacheStore)
    (r : ImageRec) (content2 : List Nat)
    (hext : extFalsy (get_file_extension fn) = false)
    (hput : env.blobPut content
      (env.hashFn content ++ "." ++ (get_file_extension fn).getD "") = .ret ref)
    (href : ref ≠ "")
    (hmiss : get_cached_image cache2 md5 = none)
    (hfind : db2.find? (fun x => x.key == md5) = some r)
    (hblob : env.blobGet r.storage_path = some content2) :
    (upload_image env content fn db cache).cache =
      (if get_file_size_mb_hundredths content.length <
          CACHE_SIZE_LIMIT_HUNDREDTHS then
        CacheStore.setKey cache (cacheKey (env.hashFn content))
          ⟨bytesToHex content, env.getMime ref⟩ (7 * 24 * 3600)
      else cache) ∧
    (get_image env md5 db2 cache2).cache =
      (if r.size < CACHE_SIZE_LIMIT_HUNDREDTHS then
        CacheStore.setKey cache2 (cacheKey md5)
          ⟨bytesToHex content2, r.mime_type⟩ (7 * 24 * 3600)
      else cache2) := by
  constructor
  · rw [upload_image_success env content fn db cache ref hext hput href]
    rfl
  · rw [get_image_full env md5 db2 cache2 r content2 hmiss hfind hblob]
    rfl

/-- Blob environment for the C9 witness, with a succeeding blob fetch. -/
def envW9w : ImgEnv :=
  ⟨fun _ => "k", fun _ _ => .ret "r", fun _ => "m", fun _ => some [2]⟩

/-- Row looked up by the retrieval side of the C9 witness. -/
def rowW9 : ImageRec := ⟨"k2", none, 10, "m2", "p", 0⟩

/-- Witness for the amended C9 at a small upload and a small retrieval. -/
theorem C9_small_object_cache_witness :
    (upload_image envW9w [1] (some "a.jpg") [] []).cache =
      (if get_file_size_mb_hundredths ([1] : List Nat).length <
          CACHE_SIZE_LIMIT_HUNDREDTHS then
        CacheStore.setKey [] (cacheKey (envW9w.hashFn [1]))
          ⟨bytesToHex [1], envW9w.getMime "r"⟩ (7 * 24 * 3600)
      else []) ∧
    (get_image envW9w "k2" [rowW9] []).cache =
      (if rowW9.size < CACHE_SIZE_LIMIT_HUNDREDTHS then
        CacheStore.setKey [] (cacheKey "k2")
          ⟨bytesToHex [2], rowW9.mime_type⟩ (7 * 24 * 3600)
      else []) :=
  C9_small_object_cache envW9w [1] (some "a.jpg") [] [] "r" "k2" [rowW9] []
    rowW9 [2] (by decide) rfl (by decide) rfl rfl rfl

end PicFast
